import Mathlib

/-!
Verification of the Agensium analytical core: readiness scoring
(`app/agents/source/readiness_rater.py`), schema/data drift detection
(`app/agents/source/drift_detector.py`) and field profiling
(`app/agents/source/field_profiler.py`).

Tabular data is embedded shallowly: a pandas `DataFrame` is a list of
named, dtype-tagged columns of cell values; floats that carry exact
decimal data are modelled as `ℚ`, missing markers (`None`/`NaN`) as an
explicit `null` cell.  External library calls (scipy's statistical tests,
pandas' date parsing) are parameters of the embedded functions, so the
theorems quantify over their behaviour.
-/

-- The Batteries rational arithmetic is marked irreducible, which blocks
-- `decide` on concrete rational computations; restore the default.
set_option allowUnsafeReducibility true
attribute [semireducible] Rat.mul Rat.add Rat.sub Rat.inv Rat.div

namespace Agensium

/-- A cell value of a table: a number, a string, a date (as an epoch-day
count), or the missing marker (`None`/`NaN` in pandas). -/
inductive Val where
  | num (q : ℚ)
  | str (s : String)
  | date (d : ℤ)
  | null
deriving DecidableEq, Repr

/-- A pandas storage dtype, as far as the dispatch logic of the source
distinguishes them: `int64`, `float64`, `object`, `datetime64[ns]`, or
anything else. -/
inductive DType where
  | int
  | float
  | object
  | datetime
  | other
deriving DecidableEq, Repr

/-- `pd.api.types.is_numeric_dtype`. -/
def DType.isNumeric : DType → Bool
  | .int => true
  | .float => true
  | _ => false

/-- A named column of a table, with its storage dtype. -/
structure Col where
  name : String
  dtype : DType
  values : List Val
deriving DecidableEq, Repr

/-- A DataFrame: an ordered list of columns (all of equal length in a
well-formed frame). -/
abbrev DF := List Col

/-- `Series.dropna`. -/
def dropNull (vs : List Val) : List Val := vs.filter (fun v => decide (v ≠ Val.null))

/-- Python's `round` on an exact rational: round half to even. -/
def pyRound (q : ℚ) : ℤ :=
  if q - (q.floor : ℚ) < 1/2 then q.floor
  else if 1/2 < q - (q.floor : ℚ) then q.floor + 1
  else if q.floor % 2 = 0 then q.floor else q.floor + 1

/-- Python's `round(x, 2)` on an exact rational. -/
def round2 (q : ℚ) : ℚ := (pyRound (q * 100) : ℚ) / 100

theorem ratFloor_eq_intFloor (q : ℚ) : Rat.floor q = ⌊q⌋ := by
  rw [Rat.floor_def', Rat.floor_def]

theorem pyRound_intCast (n : ℤ) : pyRound ((n : ℚ)) = n := by
  simp [pyRound, ratFloor_eq_intFloor, Int.floor_intCast]

theorem pyRound_nonneg {q : ℚ} (h : 0 ≤ q) : 0 ≤ pyRound q := by
  have hf : (0 : ℤ) ≤ ⌊q⌋ := Int.le_floor.2 (by exact_mod_cast h)
  simp only [pyRound, ratFloor_eq_intFloor]
  split_ifs <;> omega

theorem pyRound_le {q : ℚ} {m : ℤ} (h : q ≤ (m : ℚ)) : pyRound q ≤ m := by
  have hf : ⌊q⌋ ≤ m := by
    have := Int.floor_le_floor h
    simpa [Int.floor_intCast] using this
  have hfl : (⌊q⌋ : ℚ) ≤ q := Int.floor_le q
  simp only [pyRound, ratFloor_eq_intFloor]
  split_ifs with h1 h2 h3
  · exact hf
  · -- the fractional part exceeds 1/2, so `q` lies strictly above `⌊q⌋`
    have hq : (⌊q⌋ : ℚ) + 1/2 < q := by linarith
    have hlt : (⌊q⌋ : ℚ) < (m : ℚ) := by linarith
    have : ⌊q⌋ < m := by exact_mod_cast hlt
    omega
  · exact hf
  · have hq : (⌊q⌋ : ℚ) + 1/2 ≤ q := by linarith
    have hlt : (⌊q⌋ : ℚ) < (m : ℚ) := by linarith
    have : ⌊q⌋ < m := by exact_mod_cast hlt
    omega

/-! ## Readiness scorer (`readiness_rater.py`) -/

/-- The dictionary returned by the readiness scorer
(`_calculate_readiness_score` / the SQL branch of
`_read_data_and_calculate_score`). -/
structure ReadinessScore where
  overall : ℤ
  completeness : ℤ
  consistency : ℤ
  schema_health : ℤ
  message : Option String := none
deriving DecidableEq, Repr

/-- Leading-segment match on character lists. -/
def leadMatch : List Char → List Char → Bool
  | [], _ => true
  | _ :: _, [] => false
  | a :: as, b :: bs => a == b && leadMatch as bs

/-- Substring occurrence on character lists (Python's `in` on strings). -/
def subOccurs (needle : List Char) : List Char → Bool
  | [] => needle.isEmpty
  | h :: t => leadMatch needle (h :: t) || subOccurs needle t

/-- ASCII lower-casing of one character (`str.lower` per character). -/
def charLower (c : Char) : Char :=
  if c.toNat ≥ 65 ∧ c.toNat ≤ 90 then Char.ofNat (c.toNat + 32) else c

/-- `'create table' in sql_script.lower()`. -/
def containsCreateTable (script : String) : Bool :=
  subOccurs "create table".toList (script.toList.map charLower)

/-- Number of rows of a frame (`len(df)`). -/
def nRows (df : DF) : ℕ :=
  match df with
  | [] => 0
  | c :: _ => c.values.length

/-- `df.empty`: true when either axis has length 0. -/
def dfEmpty (df : DF) : Bool :=
  List.isEmpty df || decide (nRows df = 0)

/-- `df.size`: total number of cells. -/
def totalCells (df : DF) : ℕ := nRows df * df.length

/-- `df.isnull().sum().sum()`: number of missing cells. -/
def nullCells (df : DF) : ℕ :=
  (df.map (fun c => c.values.countP (fun v => decide (v = Val.null)))).sum

/-- Row `i` of the frame, as the tuple of its cells. -/
def rowAt (df : DF) (i : ℕ) : List Val :=
  df.map (fun c => c.values.getD i Val.null)

/-- The rows of the frame, in order. -/
def rowsOf (df : DF) : List (List Val) :=
  (List.range (nRows df)).map (rowAt df)

/-- Count of elements equal to an element seen before them
(`seen` accumulates the prefix already traversed). -/
def dupCountAux (seen : List (List Val)) : List (List Val) → ℕ
  | [] => 0
  | r :: rs => (if r ∈ seen then 1 else 0) + dupCountAux (r :: seen) rs

/-- `df.duplicated().sum()`: rows whose full value tuple equals an
earlier row's. -/
def dupCount (rows : List (List Val)) : ℕ := dupCountAux [] rows

/-- Model of `pd.to_numeric(v, errors='coerce').notna()` on a single cell:
numbers coerce, integer-literal strings parse, everything else is NaN. -/
def valCoercible : Val → Bool
  | .num _ => true
  | .str s => (s.toInt?).isSome
  | .date _ => false
  | .null => false

/-- `df[col].nunique()`: distinct non-missing values of a column. -/
def nUnique (vs : List Val) : ℕ := (dropNull vs).dedup.length

/-- Number of `object`-dtype columns with at least one numeric-coercible
value (each costs 5 schema-health points). -/
def mostlyNumericObjCount (df : DF) : ℕ :=
  (df.filter (fun c => decide (c.dtype = DType.object))).countP
    (fun c => c.values.any valCoercible)

/-- Number of columns with exactly one distinct non-missing value
(each costs 10 schema-health points). -/
def constantColCount (df : DF) : ℕ :=
  df.countP (fun c => decide (nUnique c.values = 1))

/-- `completeness_score = max(0, 100 - null_cells/total_cells*100)`. -/
def completenessRaw (df : DF) : ℚ :=
  max 0 (100 - (nullCells df : ℚ) / (totalCells df : ℚ) * 100)

/-- `consistency_score = max(0, 100 - duplicate_rows/total_rows*100)`. -/
def consistencyRaw (df : DF) : ℚ :=
  max 0 (100 - (dupCount (rowsOf df) : ℚ) / (nRows df : ℚ) * 100)

/-- `schema_health_score` after both penalty loops and the floor at 0. -/
def schemaHealthRaw (df : DF) : ℤ :=
  max 0 (100 - 5 * (mostlyNumericObjCount df : ℤ) - 10 * (constantColCount df : ℤ))

/-- `overall_score = 0.4*completeness + 0.4*consistency + 0.2*schema_health`. -/
def overallRaw (df : DF) : ℚ :=
  completenessRaw df * (2/5) + consistencyRaw df * (2/5) + (schemaHealthRaw df : ℚ) * (1/5)

/-- `_calculate_readiness_score`. -/
def calculateReadinessScore (df : DF) : ReadinessScore :=
  if dfEmpty df then
    { overall := 0, completeness := 0, consistency := 0, schema_health := 0,
      message := some "Dataset is empty." }
  else
    { overall := pyRound (overallRaw df),
      completeness := pyRound (completenessRaw df),
      consistency := pyRound (consistencyRaw df),
      schema_health := pyRound ((schemaHealthRaw df : ℚ)) }

/-- The SQL branch of `_read_data_and_calculate_score`.
`parsedNonempty` is the outcome of the external `sqlparse.parse` call:
true iff the script parses into at least one statement
(`sqlparse.parse('')` returns the empty tuple). -/
def sqlReadiness (parsedNonempty : Bool) (script : String) : ReadinessScore × ℕ :=
  let s1 : ℤ := if parsedNonempty then 100 else 0
  let shs : ℤ := if containsCreateTable script then s1 else s1 - 50
  ({ overall := pyRound ((shs : ℚ) * (1/5)),
     completeness := 100,
     consistency := 100,
     schema_health := pyRound ((shs : ℚ)) }, 0)

/-- An input accepted by `_read_data_and_calculate_score`: either an SQL
script (with the external parser's verdict) or a successfully loaded
data frame (CSV, Excel, JSON or Parquet). -/
inductive SourceInput where
  | sql (parsedNonempty : Bool) (script : String)
  | table (df : DF)

/-- `_read_data_and_calculate_score`: the readiness dictionary and the
row count reported for the input. -/
def readDataAndCalculateScore : SourceInput → ReadinessScore × ℕ
  | .sql p s => sqlReadiness p s
  | .table df => (calculateReadinessScore df, nRows df)

/-- All four score components lie in `[0, 100]`. -/
def scoreInRange (r : ReadinessScore) : Prop :=
  0 ≤ r.overall ∧ r.overall ≤ 100 ∧
  0 ≤ r.completeness ∧ r.completeness ≤ 100 ∧
  0 ≤ r.consistency ∧ r.consistency ≤ 100 ∧
  0 ≤ r.schema_health ∧ r.schema_health ≤ 100

instance (r : ReadinessScore) : Decidable (scoreInRange r) := by
  unfold scoreInRange; infer_instance

theorem completenessRaw_bounds (df : DF) :
    0 ≤ completenessRaw df ∧ completenessRaw df ≤ 100 := by
  constructor
  · exact le_max_left 0 _
  · refine max_le (by norm_num) ?_
    have h : 0 ≤ (nullCells df : ℚ) / (totalCells df : ℚ) * 100 := by positivity
    linarith

theorem consistencyRaw_bounds (df : DF) :
    0 ≤ consistencyRaw df ∧ consistencyRaw df ≤ 100 := by
  constructor
  · exact le_max_left 0 _
  · refine max_le (by norm_num) ?_
    have h : 0 ≤ (dupCount (rowsOf df) : ℚ) / (nRows df : ℚ) * 100 := by positivity
    linarith

theorem schemaHealthRaw_bounds (df : DF) :
    0 ≤ schemaHealthRaw df ∧ schemaHealthRaw df ≤ 100 := by
  unfold schemaHealthRaw
  constructor
  · exact le_max_left 0 _
  · have h1 : (0 : ℤ) ≤ (mostlyNumericObjCount df : ℤ) := Int.ofNat_nonneg _
    have h2 : (0 : ℤ) ≤ (constantColCount df : ℤ) := Int.ofNat_nonneg _
    exact max_le (by norm_num) (by omega)

theorem calculateReadinessScore_in_range (df : DF) :
    scoreInRange (calculateReadinessScore df) := by
  unfold calculateReadinessScore
  split_ifs with h
  · exact ⟨le_refl 0, by norm_num, le_refl 0, by norm_num,
      le_refl 0, by norm_num, le_refl 0, by norm_num⟩
  · obtain ⟨hc0, hc1⟩ := completenessRaw_bounds df
    obtain ⟨hk0, hk1⟩ := consistencyRaw_bounds df
    obtain ⟨hs0, hs1⟩ := schemaHealthRaw_bounds df
    have hs0q : (0 : ℚ) ≤ (schemaHealthRaw df : ℚ) := by exact_mod_cast hs0
    have hs1q : (schemaHealthRaw df : ℚ) ≤ 100 := by exact_mod_cast hs1
    have ho0 : 0 ≤ overallRaw df := by unfold overallRaw; nlinarith
    have ho1 : overallRaw df ≤ 100 := by unfold overallRaw; nlinarith
    exact ⟨pyRound_nonneg ho0, pyRound_le (by exact_mod_cast ho1),
      pyRound_nonneg hc0, pyRound_le (by exact_mod_cast hc1),
      pyRound_nonneg hk0, pyRound_le (by exact_mod_cast hk1),
      pyRound_nonneg hs0q, pyRound_le (by exact_mod_cast hs1q)⟩

/-- C1 (amended): every data-frame input receives all four readiness
components in `[0,100]`; an SQL input does too **provided** the script
parses into at least one statement or contains a table-creation
statement.  (When neither holds, the SQL branch reports
`schema_health = -50` and `overall = -10`: the parse-failure zeroing is
applied before the missing-`CREATE TABLE` penalty, not after.) -/
theorem readiness_scores_in_range :
    (∀ df : DF, scoreInRange (readDataAndCalculateScore (SourceInput.table df)).1) ∧
    (∀ (p : Bool) (s : String), (p = true ∨ containsCreateTable s = true) →
      scoreInRange (readDataAndCalculateScore (SourceInput.sql p s)).1) ∧
    (∀ s : String, containsCreateTable s = false →
      (readDataAndCalculateScore (SourceInput.sql false s)).1.schema_health = -50 ∧
      (readDataAndCalculateScore (SourceInput.sql false s)).1.overall = -10) := by
  refine ⟨fun df => calculateReadinessScore_in_range df, ?_, ?_⟩
  · rintro p s hps
    have hps' : p = true ∨ containsCreateTable s = true := hps
    rcases p with _ | _ <;> rcases h : containsCreateTable s with _ | _ <;>
      simp only [readDataAndCalculateScore, sqlReadiness, h] <;>
      first
        | decide
        | (exfalso; rcases hps' with h' | h' <;> simp_all)
  · intro s hc
    simp only [readDataAndCalculateScore, sqlReadiness, hc]
    decide

/-- Witness for `readiness_scores_in_range` at concrete inputs. -/
theorem readiness_scores_in_range_witness :
    (true = true ∨ containsCreateTable "select 1" = true) ∧
    scoreInRange (readDataAndCalculateScore (SourceInput.sql true "select 1")).1 ∧
    containsCreateTable "" = false ∧
    (readDataAndCalculateScore (SourceInput.sql false "")).1.schema_health = -50 := by
  exact ⟨Or.inl rfl, readiness_scores_in_range.2.1 true "select 1" (Or.inl rfl),
    by decide, (readiness_scores_in_range.2.2 "" (by decide)).1⟩

/-- C1 counterexample: the empty SQL script (accepted by the scorer;
`sqlparse.parse('')` yields no statement and it contains no
`CREATE TABLE`) is reported with `schema_health` below 0. -/
theorem readiness_sql_out_of_range :
    (readDataAndCalculateScore (SourceInput.sql false "")).1.schema_health < 0 := by
  decide

/-- C2 (amended): for every SQL input, completeness and consistency are
fixed at 100, the reported row count is 0, `overall` is
`round(schema_health * 0.2)`, and `schema_health` is
`(100 if parsed else 0) - (0 if CREATE TABLE present else 50)`; in
particular, when the script fails to parse into at least one statement
the reported `schema_health` is 0 only if a table-creation statement is
present, and is `-50` otherwise (the forcing to 0 happens before the
50-point penalty, not after). -/
theorem sql_readiness_components (p : Bool) (s : String) :
    (sqlReadiness p s).2 = 0 ∧
    (sqlReadiness p s).1.completeness = 100 ∧
    (sqlReadiness p s).1.consistency = 100 ∧
    (sqlReadiness p s).1.schema_health =
      (if p then (100 : ℤ) else 0) - (if containsCreateTable s then 0 else 50) ∧
    (sqlReadiness p s).1.overall =
      pyRound (((sqlReadiness p s).1.schema_health : ℚ) * (1/5)) := by
  rcases p with _ | _ <;> rcases h : containsCreateTable s with _ | _ <;>
    simp only [sqlReadiness, h] <;> decide

/-- Witness for `sql_readiness_components` at a concrete input. -/
theorem sql_readiness_components_witness :
    (sqlReadiness false "").1.schema_health =
      (if false then (100 : ℤ) else 0) - (if containsCreateTable "" then 0 else 50) :=
  (sql_readiness_components false "").2.2.2.1

/-- C2 counterexample: a script that fails to parse into any statement
(the empty script) is reported with `schema_health = -50`, not the 0 the
claim requires. -/
theorem sql_parse_failure_not_zero :
    (sqlReadiness false "").1.schema_health = -50 ∧ ((-50 : ℤ) = 0 → False) := by
  exact ⟨by decide, by decide⟩

/-! ## Drift detector (`drift_detector.py`) -/

/-- An entry of the drift report dictionary: a schema-change record, a
data-drift record, a temporal-range record, or a failure note. -/
inductive Finding where
  | schemaChange (msg : String)
  | dataDrift (drift_score p_value : ℚ) (direction : String)
  | temporal (earliest_baseline earliest_current latest_baseline latest_current : ℤ)
  | note (msg : String)
deriving DecidableEq, Repr

/-- The external statistical library (scipy / pandas date parsing), a
parameter of the embedded drift detector: `ks` is `ks_2samp`, `chi2` is
`chi2_contingency` on a 2×K table given as its two rows, `toDate` is
`pd.to_datetime(·, errors='coerce')` on one cell (`none` = `NaT`).
Failures raised by a test surface as `Except.error`. -/
structure StatLib where
  ks : List Val → List Val → Except String (ℚ × ℚ)
  chi2 : List ℕ → List ℕ → Except String (ℚ × ℚ)
  toDate : Val → Option ℤ

/-- Assignment `d[k] = v` on a Python dict kept as an ordered
association list: overwrite in place, else append. -/
def dictInsert : List (String × Finding) → String → Finding → List (String × Finding)
  | [], k, v => [(k, v)]
  | p :: rest, k, v => if p.1 = k then (k, v) :: rest else p :: dictInsert rest k v

/-- Lookup `d.get(k)` on the dict. -/
def dictGet (d : List (String × Finding)) (k : String) : Option Finding :=
  (d.find? (fun p => p.1 == k)).map Prod.snd

/-- One iteration of a report-building loop: write `f col` under key
`col` if it produced a finding. -/
def dictStep (f : String → Option Finding) (d : List (String × Finding)) (col : String) :
    List (String × Finding) :=
  match f col with
  | some v => dictInsert d col v
  | none => d

/-- A whole report-building loop over a list of column names. -/
def applyAll (f : String → Option Finding) (cols : List String)
    (d : List (String × Finding)) : List (String × Finding) :=
  cols.foldl (dictStep f) d

theorem dictGet_insert_self (d : List (String × Finding)) (k : String) (v : Finding) :
    dictGet (dictInsert d k v) k = some v := by
  induction d with
  | nil => simp [dictInsert, dictGet]
  | cons p rest ih =>
      by_cases h : p.1 = k
      · simp [dictInsert, h, dictGet]
      · simp only [dictInsert, if_neg h]
        simpa [dictGet, List.find?, show (p.1 == k) = false by simpa using h] using ih

theorem dictGet_insert_ne (d : List (String × Finding)) (k : String) (v : Finding)
    (k' : String) (h : k' ≠ k) : dictGet (dictInsert d k v) k' = dictGet d k' := by
  induction d with
  | nil => simp [dictInsert, dictGet, show (k == k') = false by simpa using (Ne.symm h)]
  | cons p rest ih =>
      by_cases hp : p.1 = k
      · simp only [dictInsert, if_pos hp, dictGet, List.find?]
        rw [show (k == k') = false by simpa using (Ne.symm h),
            show (p.1 == k') = false by simpa [hp] using (Ne.symm h)]
      · simp only [dictInsert, if_neg hp]
        by_cases hk : p.1 = k'
        · simp [dictGet, List.find?, hk]
        · simp only [dictGet, List.find?,
            show (p.1 == k') = false by simpa using hk]
          exact ih

theorem dictGet_dictStep_ne (f : String → Option Finding) (d : List (String × Finding))
    (x col : String) (h : col ≠ x) : dictGet (dictStep f d x) col = dictGet d col := by
  unfold dictStep
  cases f x with
  | none => rfl
  | some v => exact dictGet_insert_ne d x v col h

theorem dictGet_dictStep_self (f : String → Option Finding) (d : List (String × Finding))
    (x : String) :
    dictGet (dictStep f d x) x =
      (match f x with | some v => some v | none => dictGet d x) := by
  unfold dictStep
  cases f x with
  | none => rfl
  | some v => exact dictGet_insert_self d x v

theorem applyAll_nil (f : String → Option Finding) (d : List (String × Finding)) :
    applyAll f [] d = d := rfl

theorem applyAll_cons (f : String → Option Finding) (x : String) (xs : List String)
    (d : List (String × Finding)) :
    applyAll f (x :: xs) d = applyAll f xs (dictStep f d x) := rfl

theorem dictGet_applyAll_notMem (f : String → Option Finding) (cols : List String)
    (d : List (String × Finding)) (col : String) (h : col ∉ cols) :
    dictGet (applyAll f cols d) col = dictGet d col := by
  induction cols generalizing d with
  | nil => rfl
  | cons x xs ih =>
      have hx : col ≠ x := fun e => h (e ▸ List.mem_cons_self x xs)
      have hxs : col ∉ xs := fun m => h (List.mem_cons_of_mem _ m)
      rw [applyAll_cons, ih _ hxs, dictGet_dictStep_ne f d x col hx]

theorem dictGet_applyAll_mem (f : String → Option Finding) (cols : List String)
    (d : List (String × Finding)) (col : String) (hnd : cols.Nodup) (h : col ∈ cols) :
    dictGet (applyAll f cols d) col =
      (match f col with | some v => some v | none => dictGet d col) := by
  induction cols generalizing d with
  | nil => cases h
  | cons x xs ih =>
      rcases List.mem_cons.1 h with he | hm
      · subst he
        have hx : col ∉ xs := (List.nodup_cons.1 hnd).1
        rw [applyAll_cons, dictGet_applyAll_notMem f xs _ col hx,
          dictGet_dictStep_self]
      · have hne : col ≠ x := by
          rintro rfl
          exact (List.nodup_cons.1 hnd).1 hm
        rw [applyAll_cons, ih (dictStep f d x) (List.nodup_cons.1 hnd).2 hm,
          dictGet_dictStep_ne f d x col hne]

theorem keys_dictInsert_sub {d : List (String × Finding)} {k : String} {v : Finding}
    {x : String} (h : x ∈ (dictInsert d k v).map Prod.fst) :
    x = k ∨ x ∈ d.map Prod.fst := by
  induction d with
  | nil => simpa [dictInsert] using h
  | cons p rest ih =>
      by_cases hp : p.1 = k
      · simp only [dictInsert, if_pos hp, List.map_cons, List.mem_cons] at h
        simpa using h.imp_right (fun hr => Or.inr hr)
      · simp only [dictInsert, if_neg hp, List.map_cons, List.mem_cons] at h
        rcases h with he | hm
        · exact Or.inr (by simp [he])
        · rcases ih hm with h1 | h2
          · exact Or.inl h1
          · exact Or.inr (by simp [h2])

theorem keys_nodup_dictInsert {d : List (String × Finding)} {k : String} {v : Finding}
    (h : (d.map Prod.fst).Nodup) : ((dictInsert d k v).map Prod.fst).Nodup := by
  induction d with
  | nil => simp [dictInsert]
  | cons p rest ih =>
      rw [List.map_cons, List.nodup_cons] at h
      by_cases hp : p.1 = k
      · simp only [dictInsert, if_pos hp, List.map_cons, List.nodup_cons]
        exact ⟨hp ▸ h.1, h.2⟩
      · simp only [dictInsert, if_neg hp, List.map_cons, List.nodup_cons]
        refine ⟨fun hm => ?_, ih h.2⟩
        rcases keys_dictInsert_sub hm with he | hm'
        · exact hp he
        · exact h.1 hm'

theorem keys_nodup_dictStep (f : String → Option Finding) (d : List (String × Finding))
    (x : String) (h : (d.map Prod.fst).Nodup) :
    ((dictStep f d x).map Prod.fst).Nodup := by
  unfold dictStep
  cases f x with
  | none => exact h
  | some v => exact keys_nodup_dictInsert h

theorem keys_nodup_applyAll (f : String → Option Finding) (cols : List String)
    (d : List (String × Finding)) (h : (d.map Prod.fst).Nodup) :
    ((applyAll f cols d).map Prod.fst).Nodup := by
  induction cols generalizing d with
  | nil => exact h
  | cons x xs ih => exact ih _ (keys_nodup_dictStep f d x h)

/-- The column-name set of a frame (`set(df.columns)`). -/
def colNames (df : DF) : List String := (df.map Col.name).dedup

/-- `df[col]` for a present column name. -/
def getCol (df : DF) (n : String) : Option Col := df.find? (fun c => c.name == n)

/-- `current_cols - baseline_cols`. -/
def newCols (b c : DF) : List String :=
  (colNames c).filter (fun n => decide (n ∉ colNames b))

/-- `baseline_cols - current_cols`. -/
def missingCols (b c : DF) : List String :=
  (colNames b).filter (fun n => decide (n ∉ colNames c))

/-- `baseline_cols & current_cols`. -/
def sharedCols (b c : DF) : List String :=
  (colNames b).filter (fun n => decide (n ∈ colNames c))

/-- The string pandas prints for each dtype (used in type-change
messages). -/
def DType.pdName : DType → String
  | .int => "int64"
  | .float => "float64"
  | .object => "object"
  | .datetime => "datetime64[ns]"
  | .other => "other"

/-- `'date' in col.lower()`. -/
def hasDateName (col : String) : Bool :=
  subOccurs "date".toList (col.toList.map charLower)

/-- A cell as the number `Series.mean` sees (reached only on numeric
data, after a successful KS call). -/
def valToQ : Val → ℚ
  | .num q => q
  | .date d => (d : ℚ)
  | _ => 0

/-- `Series.mean` on numeric data. -/
def meanVal (vs : List Val) : ℚ := (vs.map valToQ).sum / (vs.length : ℚ)

/-- `list(set(base_counts.index) | set(curr_counts.index))`: the category
union over which the contingency table is built. -/
def contingencyCats (base curr : List Val) : List Val :=
  base.dedup ++ curr.dedup.filter (fun v => decide (v ∉ base.dedup))

/-- One row of the contingency table: the frequency of each category in
one sample (`counts.get(cat, 0)`). -/
def freqRow (cats sample : List Val) : List ℕ := cats.map (fun v => sample.count v)

def zMin : List ℤ → ℤ
  | [] => 0
  | x :: xs => xs.foldl min x

def zMax : List ℤ → ℤ
  | [] => 0
  | x :: xs => xs.foldl max x

/-- The data-drift pass body for one shared column: `None` models the
`continue` (an empty side) or a column that matches no branch; dispatch
is on the **baseline** column's dtype, in the order of the source:
numeric, then object, then datetime-or-"date"-named. -/
def colFinding (lib : StatLib) (b c : DF) (col : String) : Option Finding :=
  match getCol b col, getCol c col with
  | some bc, some cc =>
    let base := dropNull bc.values
    let curr := dropNull cc.values
    if base.isEmpty || curr.isEmpty then none
    else if bc.dtype.isNumeric then
      match lib.ks base curr with
      | .ok (s, p) =>
          some (.dataDrift s p
            ((if meanVal base < meanVal curr then "increase" else "decrease")
              ++ " in mean " ++ col))
      | .error e => some (.note ("numeric drift detection failed: " ++ e))
    else if bc.dtype = DType.object then
      match lib.chi2 (freqRow (contingencyCats base curr) base)
                     (freqRow (contingencyCats base curr) curr) with
      | .ok (s, p) =>
          some (.dataDrift s p
            (if (curr.dedup.filter (fun v => decide (v ∉ base))).isEmpty then
              "distribution changed" else "new categories appeared"))
      | .error e => some (.note ("categorical drift detection failed: " ++ e))
    else if bc.dtype = DType.datetime || hasDateName col then
      let bd := base.filterMap lib.toDate
      let cd := curr.filterMap lib.toDate
      if !bd.isEmpty && !cd.isEmpty then
        some (.temporal (zMin bd) (zMin cd) (zMax bd) (zMax cd))
      else none
    else none
  | _, _ => none

/-- The type-change pass body for one shared column. -/
def typeChangeFinding (b c : DF) (col : String) : Option Finding :=
  match getCol b col, getCol c col with
  | some bc, some cc =>
      if bc.dtype ≠ cc.dtype then
        some (.schemaChange ("type change: " ++ bc.dtype.pdName ++ " → " ++ cc.dtype.pdName))
      else none
  | _, _ => none

/-- `DriftDetector._detect_drift_between_dfs`: the four passes over the
shared dict, in source order (new columns, missing columns, type
changes, data drift). -/
def detectDriftBetweenDfs (lib : StatLib) (b c : DF) : List (String × Finding) :=
  let d1 := applyAll (fun col => some (.schemaChange ("new column detected: " ++ col)))
    (newCols b c) []
  let d2 := applyAll (fun col => some (.schemaChange ("column missing: " ++ col)))
    (missingCols b c) d1
  let d3 := applyAll (typeChangeFinding b c) (sharedCols b c) d2
  applyAll (colFinding lib b c) (sharedCols b c) d3

/-- The report entry each column ends up with, stated per column: later
passes overwrite earlier ones, so a data-drift result shadows a
type-change record. -/
def entryFor (lib : StatLib) (b c : DF) (col : String) : Option Finding :=
  if col ∈ newCols b c then some (.schemaChange ("new column detected: " ++ col))
  else if col ∈ missingCols b c then some (.schemaChange ("column missing: " ++ col))
  else
    match colFinding lib b c col with
    | some f => some f
    | none => typeChangeFinding b c col

theorem mem_colNames {df : DF} {n : String} :
    n ∈ colNames df ↔ ∃ c ∈ df, c.name = n := by
  simp [colNames, List.mem_dedup]

theorem mem_newCols {b c : DF} {n : String} :
    n ∈ newCols b c ↔ n ∈ colNames c ∧ n ∉ colNames b := by
  simp [newCols, List.mem_filter]

theorem mem_missingCols {b c : DF} {n : String} :
    n ∈ missingCols b c ↔ n ∈ colNames b ∧ n ∉ colNames c := by
  simp [missingCols, List.mem_filter]

theorem mem_sharedCols {b c : DF} {n : String} :
    n ∈ sharedCols b c ↔ n ∈ colNames b ∧ n ∈ colNames c := by
  simp [sharedCols, List.mem_filter]

theorem newCols_nodup (b c : DF) : (newCols b c).Nodup :=
  (List.nodup_dedup _).filter _

theorem missingCols_nodup (b c : DF) : (missingCols b c).Nodup :=
  (List.nodup_dedup _).filter _

theorem sharedCols_nodup (b c : DF) : (sharedCols b c).Nodup :=
  (List.nodup_dedup _).filter _

theorem getCol_eq_none {df : DF} {n : String} (h : n ∉ colNames df) :
    getCol df n = none := by
  rw [getCol, List.find?_eq_none]
  intro c hc hbeq
  exact h (mem_colNames.2 ⟨c, hc, by simpa using hbeq⟩)

theorem mem_colNames_of_getCol {df : DF} {n : String} {c : Col}
    (h : getCol df n = some c) : n ∈ colNames df := by
  have hm := List.mem_of_find?_eq_some h
  have hp := List.find?_some h
  exact mem_colNames.2 ⟨c, hm, by simpa using hp⟩

/-- Every column's final report entry is the one `entryFor` describes:
a per-column bridge between the four sequential dict passes and a single
case analysis. -/
theorem dictGet_detectDrift (lib : StatLib) (b c : DF) (col : String) :
    dictGet (detectDriftBetweenDfs lib b c) col = entryFor lib b c col := by
  unfold detectDriftBetweenDfs entryFor
  by_cases hn : col ∈ newCols b c
  · have h1 : col ∉ colNames b := (mem_newCols.1 hn).2
    have hs : col ∉ sharedCols b c := fun hm => h1 (mem_sharedCols.1 hm).1
    have hm : col ∉ missingCols b c := fun hm => h1 (mem_missingCols.1 hm).1
    rw [dictGet_applyAll_notMem _ _ _ _ hs, dictGet_applyAll_notMem _ _ _ _ hs,
      dictGet_applyAll_notMem _ _ _ _ hm,
      dictGet_applyAll_mem _ _ _ _ (newCols_nodup b c) hn, if_pos hn]
  · by_cases hm : col ∈ missingCols b c
    · have h2 : col ∉ colNames c := (mem_missingCols.1 hm).2
      have hs : col ∉ sharedCols b c := fun hx => h2 (mem_sharedCols.1 hx).2
      rw [dictGet_applyAll_notMem _ _ _ _ hs, dictGet_applyAll_notMem _ _ _ _ hs,
        dictGet_applyAll_mem _ _ _ _ (missingCols_nodup b c) hm,
        if_neg hn, if_pos hm]
    · by_cases hs : col ∈ sharedCols b c
      · rw [dictGet_applyAll_mem _ _ _ _ (sharedCols_nodup b c) hs, if_neg hn, if_neg hm]
        cases hcf : colFinding lib b c col with
        | some f => rfl
        | none =>
            rw [dictGet_applyAll_mem _ _ _ _ (sharedCols_nodup b c) hs]
            cases htc : typeChangeFinding b c col with
            | some g => rfl
            | none =>
                rw [dictGet_applyAll_notMem _ _ _ _ hm,
                  dictGet_applyAll_notMem _ _ _ _ hn]
                rfl
      · -- the column exists on neither side
        have hb : col ∉ colNames b := by
          intro hcb
          by_cases hcc : col ∈ colNames c
          · exact hs (mem_sharedCols.2 ⟨hcb, hcc⟩)
          · exact hm (mem_missingCols.2 ⟨hcb, hcc⟩)
        have hc' : col ∉ colNames c := by
          intro hcc
          exact hn (mem_newCols.2 ⟨hcc, hb⟩)
        rw [dictGet_applyAll_notMem _ _ _ _ hs, dictGet_applyAll_notMem _ _ _ _ hs,
          dictGet_applyAll_notMem _ _ _ _ hm, dictGet_applyAll_notMem _ _ _ _ hn,
          if_neg hn, if_neg hm]
        have : colFinding lib b c col = none := by
          unfold colFinding
          rw [getCol_eq_none hb]
        rw [this]
        unfold typeChangeFinding
        rw [getCol_eq_none hb]
        rfl

deriving instance DecidableEq for Except

/-- A concrete statistical library used for witnesses, recording scipy's
and pandas' behaviour on the concrete inputs below: `ks_2samp` raises on
non-numeric data, `chi2_contingency` raises on a degenerate (single
category) table, `to_datetime(errors='coerce')` turns non-dates into
`NaT`. -/
def mockLib : StatLib where
  ks := fun base curr =>
    if (base ++ curr).all (fun v => match v with | .num _ => true | _ => false) then
      Except.ok (0, 1)
    else Except.error "unsupported operand type"
  chi2 := fun bf _ =>
    if bf.length < 2 then Except.error "degenerate contingency table"
    else Except.ok (0, 1)
  toDate := fun v => match v with | .date d => some d | _ => none

/-- C5: each column name keys at most one entry of the drift report —
schema-change and data-drift findings can never coexist for one column,
because every pass writes through the same dict key. -/
theorem drift_report_at_most_one_finding (lib : StatLib) (b c : DF) (col : String) :
    (detectDriftBetweenDfs lib b c).countP (fun p => p.1 == col) ≤ 1 := by
  have hn : ((detectDriftBetweenDfs lib b c).map Prod.fst).Nodup := by
    unfold detectDriftBetweenDfs
    exact keys_nodup_applyAll _ _ _ (keys_nodup_applyAll _ _ _
      (keys_nodup_applyAll _ _ _ (keys_nodup_applyAll _ _ _ (by simp))))
  have h1 : (detectDriftBetweenDfs lib b c).countP (fun p => p.1 == col)
      = List.count col ((detectDriftBetweenDfs lib b c).map Prod.fst) := by
    rw [List.count, List.countP_map]
    rfl
  rw [h1]
  exact List.nodup_iff_count_le_one.1 hn col

/-- C7: schema diffing is symmetric in detection — `newCols` of one
direction is exactly `missingCols` of the other, and each such column
carries the corresponding schema-change finding in the two reports. -/
theorem schema_diff_symmetric (lib : StatLib) (b c : DF) :
    newCols b c = missingCols c b ∧ missingCols b c = newCols c b ∧
    (∀ col ∈ newCols b c,
      dictGet (detectDriftBetweenDfs lib b c) col =
        some (.schemaChange ("new column detected: " ++ col)) ∧
      dictGet (detectDriftBetweenDfs lib c b) col =
        some (.schemaChange ("column missing: " ++ col))) ∧
    (∀ col ∈ missingCols b c,
      dictGet (detectDriftBetweenDfs lib b c) col =
        some (.schemaChange ("column missing: " ++ col)) ∧
      dictGet (detectDriftBetweenDfs lib c b) col =
        some (.schemaChange ("new column detected: " ++ col))) := by
  refine ⟨rfl, rfl, ?_, ?_⟩
  · intro col hcol
    obtain ⟨hc1, hb1⟩ := mem_newCols.1 hcol
    constructor
    · rw [dictGet_detectDrift]
      unfold entryFor
      rw [if_pos hcol]
    · rw [dictGet_detectDrift]
      unfold entryFor
      have hnn : col ∉ newCols c b := fun hx => hb1 (mem_newCols.1 hx).1
      have hmm : col ∈ missingCols c b := mem_missingCols.2 ⟨hc1, hb1⟩
      rw [if_neg hnn, if_pos hmm]
  · intro col hcol
    obtain ⟨hb1, hc1⟩ := mem_missingCols.1 hcol
    constructor
    · rw [dictGet_detectDrift]
      unfold entryFor
      have hnn : col ∉ newCols b c := fun hx => hc1 (mem_newCols.1 hx).1
      rw [if_neg hnn, if_pos hcol]
    · rw [dictGet_detectDrift]
      unfold entryFor
      have hnn : col ∈ newCols c b := mem_newCols.2 ⟨hb1, hc1⟩
      rw [if_pos hnn]

def bW : DF := [⟨"id", .int, [.num 1]⟩, ⟨"old", .int, [.num 1]⟩]

def cW : DF := [⟨"id", .int, [.num 2]⟩, ⟨"fresh", .int, [.num 2]⟩]

/-- Witness for `schema_diff_symmetric` at concrete frames. -/
theorem schema_diff_symmetric_witness :
    "fresh" ∈ newCols bW cW ∧
    dictGet (detectDriftBetweenDfs mockLib bW cW) "fresh" =
      some (.schemaChange "new column detected: fresh") ∧
    dictGet (detectDriftBetweenDfs mockLib cW bW) "fresh" =
      some (.schemaChange "column missing: fresh") := by
  have h := (schema_diff_symmetric mockLib bW cW).2.2.1 "fresh" (by decide)
  exact ⟨by decide, h.1, h.2⟩

/-- C3 (amended): a temporal-range record is emitted exactly for shared
columns whose baseline dtype is **neither numeric nor object** and which
are datetime-typed or "date"-named, with ≥1 valid parsed date on each
side; numeric- and object-typed columns named "date" take the numeric
resp. categorical statistical path instead. -/
theorem temporal_range_record (lib : StatLib) (b c : DF) (col : String) (bc cc : Col)
    (hb : getCol b col = some bc) (hc : getCol c col = some cc)
    (hbe : (dropNull bc.values).isEmpty = false)
    (hce : (dropNull cc.values).isEmpty = false)
    (hkind : bc.dtype = DType.datetime ∨ (bc.dtype = DType.other ∧ hasDateName col = true))
    (hbd : ((dropNull bc.values).filterMap lib.toDate).isEmpty = false)
    (hcd : ((dropNull cc.values).filterMap lib.toDate).isEmpty = false) :
    dictGet (detectDriftBetweenDfs lib b c) col =
      some (.temporal (zMin ((dropNull bc.values).filterMap lib.toDate))
                      (zMin ((dropNull cc.values).filterMap lib.toDate))
                      (zMax ((dropNull bc.values).filterMap lib.toDate))
                      (zMax ((dropNull cc.values).filterMap lib.toDate))) := by
  have hcb : col ∈ colNames b := mem_colNames_of_getCol hb
  have hcc : col ∈ colNames c := mem_colNames_of_getCol hc
  have hn : col ∉ newCols b c := fun h => (mem_newCols.1 h).2 hcb
  have hm : col ∉ missingCols b c := fun h => (mem_missingCols.1 h).2 hcc
  rw [dictGet_detectDrift]
  unfold entryFor
  rw [if_neg hn, if_neg hm]
  have hker : colFinding lib b c col =
      some (.temporal (zMin ((dropNull bc.values).filterMap lib.toDate))
                      (zMin ((dropNull cc.values).filterMap lib.toDate))
                      (zMax ((dropNull bc.values).filterMap lib.toDate))
                      (zMax ((dropNull cc.values).filterMap lib.toDate))) := by
    unfold colFinding
    rw [hb, hc]
    rcases hkind with hdt | ⟨hot, hdn⟩
    · simp [hbe, hce, hbd, hcd, hdt, DType.isNumeric]
    · simp [hbe, hce, hbd, hcd, hot, hdn, DType.isNumeric]
  rw [hker]

def bT : DF := [⟨"created", .datetime, [.date 10, .null]⟩]

def cT : DF := [⟨"created", .datetime, [.date 20]⟩]

/-- Witness for `temporal_range_record` at concrete frames. -/
theorem temporal_range_record_witness :
    dictGet (detectDriftBetweenDfs mockLib bT cT) "created" =
      some (.temporal 10 20 10 20) := by
  have h := temporal_range_record mockLib bT cT "created"
    ⟨"created", .datetime, [.date 10, .null]⟩ ⟨"created", .datetime, [.date 20]⟩
    (by decide) (by decide) (by decide) (by decide) (Or.inl rfl) (by decide) (by decide)
  exact h.trans (by decide)

def bD : DF := [⟨"date", .int, [.num 1]⟩]

def cD : DF := [⟨"date", .int, [.num 2]⟩]

/-- C3 counterexample: a shared column named `date` whose storage type
is numeric gets a statistical data-drift record, not a temporal-range
record, although both sides hold parseable data and the claim's
name-based trigger applies. -/
theorem date_named_numeric_not_temporal :
    hasDateName "date" = true ∧
    (getCol bD "date").map Col.dtype = some DType.int ∧
    dictGet (detectDriftBetweenDfs mockLib bD cD) "date" =
      some (.dataDrift 0 1 "increase in mean date") := by
  decide

/-- C4 (amended): the data-drift pass runs on every shared column with
non-empty sides, dispatching on the **baseline** dtype regardless of
whether the current side's dtype (kind) matches; whenever it produces a
result for a type-changed column, that result (drift record or failure
note) overwrites the type-change finding. -/
theorem type_change_overwritten (lib : StatLib) (b c : DF) (col : String) (f g : Finding)
    (htc : typeChangeFinding b c col = some g)
    (hcf : colFinding lib b c col = some f) :
    dictGet (detectDriftBetweenDfs lib b c) col = some f := by
  have hb : ∃ bc, getCol b col = some bc := by
    unfold typeChangeFinding at htc
    cases hgb : getCol b col with
    | none => rw [hgb] at htc; exact absurd htc (by simp)
    | some bc => exact ⟨bc, rfl⟩
  have hc : ∃ cc, getCol c col = some cc := by
    unfold typeChangeFinding at htc
    cases hgc : getCol c col with
    | none =>
        rw [hgc] at htc
        cases hgb : getCol b col with
        | none => rw [hgb] at htc; exact absurd htc (by simp)
        | some bc => rw [hgb] at htc; exact absurd htc (by simp)
    | some cc => exact ⟨cc, rfl⟩
  obtain ⟨bc, hb⟩ := hb
  obtain ⟨cc, hc⟩ := hc
  have hcb : col ∈ colNames b := mem_colNames_of_getCol hb
  have hcc : col ∈ colNames c := mem_colNames_of_getCol hc
  have hn : col ∉ newCols b c := fun h => (mem_newCols.1 h).2 hcb
  have hm : col ∉ missingCols b c := fun h => (mem_missingCols.1 h).2 hcc
  rw [dictGet_detectDrift]
  unfold entryFor
  rw [if_neg hn, if_neg hm, hcf]

def bM : DF := [⟨"a", .int, [.num 1, .num 2]⟩]

def cM : DF := [⟨"a", .object, [.str "x"]⟩]

/-- C4 counterexample: a shared column whose kind changed (numeric →
object) is still fed to the numeric statistical test (which fails on
strings), and the resulting failure note replaces the type-change
finding — it does not receive "only a schema-change finding". -/
theorem kind_mismatch_still_tested :
    typeChangeFinding bM cM "a" = some (.schemaChange "type change: int64 → object") ∧
    dictGet (detectDriftBetweenDfs mockLib bM cM) "a" =
      some (.note "numeric drift detection failed: unsupported operand type") := by
  decide

/-- Witness for `type_change_overwritten` at concrete frames. -/
theorem type_change_overwritten_witness :
    dictGet (detectDriftBetweenDfs mockLib bM cM) "a" =
      some (.note "numeric drift detection failed: unsupported operand type") :=
  type_change_overwritten mockLib bM cM "a"
    (.note "numeric drift detection failed: unsupported operand type")
    (.schemaChange "type change: int64 → object")
    (by decide) (by decide)

/-- C6: a failure raised inside one column's statistical test (numeric
or categorical) is caught and reported as a
`<kind> drift detection failed: <reason>` note for that column, and
every other column's entry is still the one its own data determines. -/
theorem drift_failure_isolated (lib : StatLib) (b c : DF) (col : String) (bc cc : Col)
    (kind e : String)
    (hb : getCol b col = some bc) (hc : getCol c col = some cc)
    (hbe : (dropNull bc.values).isEmpty = false)
    (hce : (dropNull cc.values).isEmpty = false)
    (hfail :
      (bc.dtype.isNumeric = true ∧ kind = "numeric" ∧
        lib.ks (dropNull bc.values) (dropNull cc.values) = Except.error e) ∨
      (bc.dtype = DType.object ∧ kind = "categorical" ∧
        lib.chi2
          (freqRow (contingencyCats (dropNull bc.values) (dropNull cc.values))
            (dropNull bc.values))
          (freqRow (contingencyCats (dropNull bc.values) (dropNull cc.values))
            (dropNull cc.values)) = Except.error e)) :
    dictGet (detectDriftBetweenDfs lib b c) col =
      some (.note (kind ++ " drift detection failed: " ++ e)) ∧
    ∀ col', col' ≠ col →
      dictGet (detectDriftBetweenDfs lib b c) col' = entryFor lib b c col' := by
  refine ⟨?_, fun col' _ => dictGet_detectDrift lib b c col'⟩
  have hcb : col ∈ colNames b := mem_colNames_of_getCol hb
  have hcc : col ∈ colNames c := mem_colNames_of_getCol hc
  have hn : col ∉ newCols b c := fun h => (mem_newCols.1 h).2 hcb
  have hm : col ∉ missingCols b c := fun h => (mem_missingCols.1 h).2 hcc
  rw [dictGet_detectDrift]
  unfold entryFor
  rw [if_neg hn, if_neg hm]
  have hker : colFinding lib b c col =
      some (.note (kind ++ " drift detection failed: " ++ e)) := by
    unfold colFinding
    rw [hb, hc]
    rcases hfail with ⟨hnum, hk, hks⟩ | ⟨hobj, hk, hchi⟩
    · subst hk
      simp [hbe, hce, hnum, hks]
    · subst hk
      simp [hbe, hce, hobj, hchi, DType.isNumeric]
  rw [hker]

def bE : DF := [⟨"a", .int, [.num 1]⟩, ⟨"b", .int, [.num 3]⟩]

def cE : DF := [⟨"a", .object, [.str "x"]⟩, ⟨"b", .int, [.num 4]⟩]

/-- Witness for `drift_failure_isolated` at concrete frames: column `a`
fails inside the KS test and gets a note, column `b` keeps its own
data-drift finding. -/
theorem drift_failure_isolated_witness :
    dictGet (detectDriftBetweenDfs mockLib bE cE) "a" =
      some (.note "numeric drift detection failed: unsupported operand type") ∧
    dictGet (detectDriftBetweenDfs mockLib bE cE) "b" = entryFor mockLib bE cE "b" := by
  have h := drift_failure_isolated mockLib bE cE "a"
    ⟨"a", .int, [.num 1]⟩ ⟨"a", .object, [.str "x"]⟩
    "numeric" "unsupported operand type"
    (by decide) (by decide) (by decide) (by decide)
    (Or.inl ⟨by decide, rfl, by decide⟩)
  exact ⟨h.1, h.2 "b" (by decide)⟩

/-! ## Readiness consistency (C8) -/

theorem dupCountAux_eq (l : List (List Val)) :
    ∀ seen : List (List Val),
      dupCountAux seen l =
        (List.range l.length).countP
          (fun i => decide (l.getD i [] ∈ seen ++ l.take i)) := by
  induction l with
  | nil => intro seen; rfl
  | cons r rs ih =>
      intro seen
      rw [dupCountAux, List.length_cons, List.range_succ_eq_map, List.countP_cons,
        List.countP_map, ih (r :: seen)]
      have hzero :
          (decide ((r :: rs).getD 0 [] ∈ seen ++ (r :: rs).take 0)) =
            decide (r ∈ seen) := by
        simp
      have hcong :
          (List.range rs.length).countP
              ((fun i => decide ((r :: rs).getD i [] ∈ seen ++ (r :: rs).take i)) ∘ Nat.succ) =
            (List.range rs.length).countP
              (fun i => decide (rs.getD i [] ∈ (r :: seen) ++ rs.take i)) := by
        rw [List.countP_eq_length_filter, List.countP_eq_length_filter]
        congr 1
        apply List.filter_congr
        intro i _
        simp only [Function.comp_apply, List.getD_cons_succ, List.take_succ_cons]
        rw [decide_eq_decide]
        simp only [List.mem_append, List.mem_cons]
        tauto
      rw [hcong, hzero]
      rcases Decidable.em (r ∈ seen) with h | h <;> simp [h] <;> omega

def df10 : DF :=
  [⟨"a", .int, [.num 1, .num 2, .num 3, .num 4, .num 5,
                .num 6, .num 7, .num 8, .num 1, .num 2]⟩]

/-- C8: the reported consistency score is the rounding of
`max(0, 100 - duplicates/total*100)`, where the duplicate count is
exactly the number of row indices whose full value tuple occurs among
the earlier rows; on a 10-row table with 2 duplicated rows the score is
80. -/
theorem consistency_formula :
    (∀ df : DF, dfEmpty df = false →
      (calculateReadinessScore df).consistency = pyRound (consistencyRaw df)) ∧
    (∀ rows : List (List Val),
      dupCount rows =
        (List.range rows.length).countP
          (fun i => decide (rows.getD i [] ∈ rows.take i))) ∧
    consistencyRaw df10 = 80 ∧
    (calculateReadinessScore df10).consistency = 80 := by
  refine ⟨?_, ?_, by decide, by decide⟩
  · intro df h
    simp [calculateReadinessScore, h]
  · intro rows
    simpa using dupCountAux_eq rows []

/-- Witness for `consistency_formula` at the concrete 10-row frame. -/
theorem consistency_formula_witness :
    dfEmpty df10 = false ∧
    (calculateReadinessScore df10).consistency = pyRound (consistencyRaw df10) :=
  ⟨by decide, consistency_formula.1 df10 (by decide)⟩

/-! ## Field profiler (`field_profiler.py`) -/

/-- The numeric values of a column (what pandas' quantile/mean see after
dropping `NaN`). -/
def numsOf (vs : List Val) : List ℚ :=
  vs.filterMap (fun v => match v with | Val.num q => some q | _ => none)

def insertSorted (x : ℚ) : List ℚ → List ℚ
  | [] => [x]
  | y :: ys => if x ≤ y then x :: y :: ys else y :: insertSorted x ys

def sortQ (l : List ℚ) : List ℚ := l.foldr insertSorted []

/-- `Series.quantile(p)` with the default linear interpolation:
`h = p*(n-1)`, result `s[⌊h⌋] + (h-⌊h⌋)*(s[⌊h⌋+1] - s[⌊h⌋])` on the
sorted values. -/
def quantileQ (l : List ℚ) (p : ℚ) : ℚ :=
  let s := sortQ l
  let h := p * ((s.length : ℚ) - 1)
  let i := (Rat.floor h).toNat
  let lo := s.getD i 0
  lo + (h - (Rat.floor h : ℚ)) * (s.getD (i + 1) 0 - lo)

/-- `q1 - 1.5*iqr`. -/
def lowBound (xs : List ℚ) : ℚ :=
  quantileQ xs (1/4) - 3/2 * (quantileQ xs (3/4) - quantileQ xs (1/4))

/-- `q3 + 1.5*iqr`. -/
def highBound (xs : List ℚ) : ℚ :=
  quantileQ xs (3/4) + 3/2 * (quantileQ xs (3/4) - quantileQ xs (1/4))

/-- The outlier list of one column: values strictly outside the IQR
bounds, in order, rounded to 2 decimals (`NaN` cells never compare
true, so only numeric values can qualify). -/
def outliersOf (vs : List Val) : List ℚ :=
  let xs := numsOf vs
  (xs.filter (fun x => decide (highBound xs < x) || decide (x < lowBound xs))).map round2

/-- The `outliers` anomaly dict of `_profile_dataframe`: one entry per
numeric-dtype column with a non-empty outlier list. -/
def profileOutliers (df : DF) : List (String × List ℚ) :=
  df.filterMap (fun c =>
    if c.dtype.isNumeric then
      if outliersOf c.values ≠ [] then some (c.name, outliersOf c.values) else none
    else none)

/-- Generic ordered-dict lookup. -/
def alistGet {α : Type _} (d : List (String × α)) (k : String) : Option α :=
  (d.find? (fun p => p.1 == k)).map Prod.snd

theorem alistGet_profileOutliers_notMem (df : DF) (n : String)
    (h : n ∉ df.map Col.name) : alistGet (profileOutliers df) n = none := by
  induction df with
  | nil => rfl
  | cons d rest ih =>
      have hdn : d.name ≠ n := fun e => h (by simp [e])
      have hrest : n ∉ rest.map Col.name := fun m => h (by simp; right; simpa using m)
      rw [profileOutliers, List.filterMap_cons]
      split
      · exact ih hrest
      · next b hb =>
          have hbn : b.1 = d.name := by
            by_cases h1 : d.dtype.isNumeric <;>
              by_cases h2 : outliersOf d.values = [] <;>
              simp [h1, h2] at hb <;> simp [← hb]
          simp only [alistGet, List.find?]
          rw [show (b.1 == n) = false by simp [hbn]; exact hdn]
          exact ih hrest

theorem alistGet_profileOutliers (df : DF) (c : Col)
    (hnd : (df.map Col.name).Nodup) (hc : c ∈ df) (hdt : c.dtype.isNumeric = true) :
    alistGet (profileOutliers df) c.name =
      (if outliersOf c.values = [] then none else some (outliersOf c.values)) := by
  induction df with
  | nil => cases hc
  | cons d rest ih =>
      rw [List.map_cons, List.nodup_cons] at hnd
      rcases List.mem_cons.1 hc with he | hm
      · subst he
        rw [profileOutliers, List.filterMap_cons]
        by_cases hout : outliersOf c.values = []
        · rw [show (if c.dtype.isNumeric = true then
              if outliersOf c.values ≠ [] then some (c.name, outliersOf c.values) else none
            else none) = none by simp [hdt, hout]]
          rw [if_pos hout]
          exact alistGet_profileOutliers_notMem rest c.name hnd.1
        · rw [show (if c.dtype.isNumeric = true then
              if outliersOf c.values ≠ [] then some (c.name, outliersOf c.values) else none
            else none) = some (c.name, outliersOf c.values) by simp [hdt, hout]]
          rw [if_neg hout]
          simp [alistGet, List.find?]
      · have hcn : c.name ∈ rest.map Col.name := List.mem_map_of_mem Col.name hm
        have hdn : d.name ≠ c.name := fun e => hnd.1 (e ▸ hcn)
        rw [profileOutliers, List.filterMap_cons]
        split
        · exact ih hnd.2 hm
        · next b hb =>
            have hbn : b.1 = d.name := by
              by_cases h1 : d.dtype.isNumeric <;>
                by_cases h2 : outliersOf d.values = [] <;>
                simp [h1, h2] at hb <;> simp [← hb]
            simp only [alistGet, List.find?]
            rw [show (b.1 == c.name) = false by simp [hbn]; exact hdn]
            exact ih hnd.2 hm

def sixVals : List Val := [.num 1, .num 2, .num 3, .num 4, .num 5, .num 100]

def fiveVals : List Val := [.num 1, .num 2, .num 3, .num 4, .num 5]

def dfSix : DF := [⟨"v", .int, sixVals⟩]

def dfFive : DF := [⟨"v", .int, fiveVals⟩]

/-- C9: a value is reported as an outlier of a column exactly when it is
the 2-decimal rounding of a numeric value strictly outside
`[Q1 - 1.5*IQR, Q3 + 1.5*IQR]` (quartiles by linear interpolation); a
numeric column appears in the `outliers` anomaly dict iff its list is
non-empty; concretely, `[1,2,3,4,5,100]` has `Q1 = 2.25`, `Q3 = 4.75`
and flags exactly `100`, while `[1,2,3,4,5]` flags nothing. -/
theorem outlier_detection :
    (∀ (vs : List Val) (x : ℚ),
      x ∈ outliersOf vs ↔
        ∃ y ∈ numsOf vs,
          (y < lowBound (numsOf vs) ∨ highBound (numsOf vs) < y) ∧ x = round2 y) ∧
    (∀ (df : DF) (c : Col),
      (df.map Col.name).Nodup → c ∈ df → c.dtype.isNumeric = true →
      alistGet (profileOutliers df) c.name =
        (if outliersOf c.values = [] then none else some (outliersOf c.values))) ∧
    quantileQ (numsOf sixVals) (1/4) = 9/4 ∧
    quantileQ (numsOf sixVals) (3/4) = 19/4 ∧
    outliersOf sixVals = [100] ∧
    outliersOf fiveVals = [] ∧
    alistGet (profileOutliers dfSix) "v" = some [100] ∧
    alistGet (profileOutliers dfFive) "v" = none := by
  refine ⟨?_, alistGet_profileOutliers, by decide, by decide, by decide, by decide,
    by decide, by decide⟩
  intro vs x
  simp only [outliersOf, List.mem_map, List.mem_filter, Bool.or_eq_true, decide_eq_true_eq]
  constructor
  · rintro ⟨y, ⟨hy, hor⟩, hx⟩
    exact ⟨y, hy, hor.symm.imp (fun h => h) (fun h => h), hx.symm⟩
  · rintro ⟨y, hy, hor, hx⟩
    exact ⟨y, ⟨hy, hor.symm.imp (fun h => h) (fun h => h)⟩, hx.symm⟩

/-- Witness for `outlier_detection` at the concrete frames. -/
theorem outlier_detection_witness :
    alistGet (profileOutliers dfSix) "v" =
      (if outliersOf sixVals = [] then none else some (outliersOf sixVals)) :=
  outlier_detection.2.1 dfSix ⟨"v", DType.int, sixVals⟩ (by decide) (by decide) (by decide)

/-- `pd.value_counts(col_data, normalize=True)`: the empirical value
distribution of a column (order irrelevant for the entropy sum). -/
def probsOf (vs : List Val) : List ℚ :=
  vs.dedup.map (fun v => (vs.count v : ℚ) / (vs.length : ℚ))

/-- `scipy.stats.entropy(pk, base=2)` on an already-normalized
distribution: `-Σ p·log2 p`. -/
noncomputable def shannonEntropy (ps : List ℚ) : ℝ :=
  -((ps.map (fun p => (p : ℝ) * Real.logb 2 (p : ℝ))).sum)

/-- Python's `round(x, 2)` on a real; the irrational values produced
here (square roots, logarithms) are never exact ties, so half-up
rounding coincides with it wherever the claims look. -/
noncomputable def round2R (x : ℝ) : ℝ := ((round (x * 100) : ℤ) : ℝ) / 100

/-- The sample variance with `ddof = 1` (the square of `Series.std()`),
meaningful only for two or more samples. -/
def sampleVarQ (xs : List ℚ) : ℚ :=
  ((xs.map (fun x => (x - xs.sum / (xs.length : ℚ)) ^ 2)).sum) / ((xs.length : ℚ) - 1)

/-- `round(float(col_data.std()), 2)`: pandas' sample standard deviation
(`ddof = 1`), which is `NaN` — modelled as `none` — when fewer than two
values remain. -/
noncomputable def stdDev (xs : List ℚ) : Option ℝ :=
  if xs.length ≤ 1 then none
  else some (round2R (Real.sqrt ((sampleVarQ xs : ℚ) : ℝ)))

def qMin : List ℚ → ℚ
  | [] => 0
  | x :: xs => xs.foldl min x

def qMax : List ℚ → ℚ
  | [] => 0
  | x :: xs => xs.foldl max x

/-- The per-column stats dict of `_profile_dataframe`. -/
inductive FieldStat where
  | numeric (min max mean : ℚ) (std_dev : Option ℝ) (entropy : ℝ)
  | temporal (minDate maxDate spreadDays : Option ℤ)
  | categorical (unique_values : ℕ) (entropy : ℝ)

/-- The field-statistics loop body of `_profile_dataframe` for one
column: `none` models the `continue` on a column that is empty after
`dropna`; dispatch order as in the source — numeric, then
datetime-or-"date"-named, else categorical. -/
noncomputable def fieldStatFor (toDate : Val → Option ℤ) (c : Col) : Option FieldStat :=
  let colData := dropNull c.values
  if colData.isEmpty then none
  else if c.dtype.isNumeric then
    let xs := numsOf colData
    some (.numeric (round2 (qMin xs)) (round2 (qMax xs))
      (round2 (xs.sum / (xs.length : ℚ))) (stdDev xs)
      (round2R (shannonEntropy (probsOf colData))))
  else if c.dtype = DType.datetime || hasDateName c.name then
    let ds := colData.filterMap toDate
    if ds.isEmpty then some (.temporal none none none)
    else some (.temporal (some (zMin ds)) (some (zMax ds)) (some (zMax ds - zMin ds)))
  else
    some (.categorical (nUnique c.values) (round2R (shannonEntropy (probsOf colData))))

/-- The `field_statistics` dict of `_profile_dataframe`. -/
noncomputable def profileFieldStats (toDate : Val → Option ℤ) (df : DF) :
    List (String × FieldStat) :=
  df.filterMap (fun c => (fieldStatFor toDate c).map (fun s => (c.name, s)))

theorem shannonEntropy_single : shannonEntropy [1] = 0 := by
  simp [shannonEntropy]

theorem round2R_zero : round2R 0 = 0 := by
  simp [round2R]

/-- C10: a numeric column with exactly one non-missing value gets
`std_dev = NaN` (`none`: pandas `std()` uses `ddof = 1`), not 0, while
min, max and mean are still produced (all equal to that value, rounded)
and the entropy is 0.0. -/
theorem single_value_std_dev (toDate : Val → Option ℤ) (c : Col) (q : ℚ)
    (hdt : c.dtype.isNumeric = true)
    (hvals : dropNull c.values = [Val.num q]) :
    fieldStatFor toDate c =
      some (.numeric (round2 q) (round2 q) (round2 q) none 0) ∧
    alistGet (profileFieldStats toDate [c]) c.name =
      some (.numeric (round2 q) (round2 q) (round2 q) none 0) := by
  have hprob : probsOf [Val.num q] = [1] := by
    simp [probsOf, List.count_cons]
  have hstat : fieldStatFor toDate c =
      some (.numeric (round2 q) (round2 q) (round2 q) none 0) := by
    rw [fieldStatFor]
    rw [hvals]
    simp only [List.isEmpty_cons, hdt, if_true, if_false, Bool.false_eq_true]
    rw [hprob, shannonEntropy_single, round2R_zero]
    simp [numsOf, qMin, qMax, stdDev]
  refine ⟨hstat, ?_⟩
  rw [profileFieldStats, List.filterMap_cons]
  simp only [hstat, Option.map_some, List.filterMap_nil]
  simp [alistGet, List.find?]

/-- Witness for `single_value_std_dev` at a concrete column. -/
theorem single_value_std_dev_witness :
    (⟨"x", DType.int, [Val.num 5, Val.null]⟩ : Col).dtype.isNumeric = true ∧
    dropNull [Val.num 5, Val.null] = [Val.num 5] ∧
    fieldStatFor mockLib.toDate ⟨"x", DType.int, [Val.num 5, Val.null]⟩ =
      some (.numeric (round2 5) (round2 5) (round2 5) none 0) :=
  ⟨by decide, by decide,
    (single_value_std_dev mockLib.toDate ⟨"x", DType.int, [Val.num 5, Val.null]⟩ 5
      (by decide) (by decide)).1⟩

end Agensium
